import Mathlib

/- Shallow embedding of the tutor/student matchmaking backend (src/app.py).
   JSON values are modelled by the mutual inductive family JVal/JArr/JObj.
   Python dicts parsed from JSON have string keys and are modelled as JObj,
   an insertion-ordered association list, matching CPython dict semantics
   (lookup by key, assignment replaces in place or appends at the end). -/

mutual
inductive JVal : Type where
  | null : JVal
  | bool : Bool → JVal
  | num : Int → JVal
  | str : String → JVal
  | arr : JArr → JVal
  | obj : JObj → JVal

inductive JArr : Type where
  | nil : JArr
  | cons : JVal → JArr → JArr

inductive JObj : Type where
  | nil : JObj
  | cons : String → JVal → JObj → JObj
end

/-- Dict lookup, `d.get(key)` / `d[key]` on a JSON-loaded (string-keyed) dict. -/
def JObj.get : JObj → String → Option JVal
  | .nil, _ => none
  | .cons k v rest, key => if k = key then some v else JObj.get rest key

/-- Dict assignment `d[key] = val`: replaces the value in place when the key
    is present (keeping its position), otherwise appends a new entry. -/
def JObj.set : JObj → String → JVal → JObj
  | .nil, key, val => .cons key val .nil
  | .cons k v rest, key, val =>
      if k = key then .cons k val rest else .cons k v (JObj.set rest key val)

/-- The dict comprehension dropping one key, as in get_all_tutors
    (src/app.py line 109): keeps every other entry in order. -/
def JObj.eraseKey : JObj → String → JObj
  | .nil, _ => .nil
  | .cons k v rest, key =>
      if k = key then JObj.eraseKey rest key else .cons k v (JObj.eraseKey rest key)

def JObj.length : JObj → Nat
  | .nil => 0
  | .cons _ _ rest => JObj.length rest + 1

/-- The i-th value of the dict, mirroring indexing into `list(d.values())`. -/
def JObj.valAt : JObj → Nat → Option JVal
  | .nil, _ => none
  | .cons _ v _, 0 => some v
  | .cons _ _ rest, n+1 => JObj.valAt rest n

def JArr.length : JArr → Nat
  | .nil => 0
  | .cons _ rest => JArr.length rest + 1

def JArr.getIdx : JArr → Nat → Option JVal
  | .nil, _ => none
  | .cons v _, 0 => some v
  | .cons _ rest, n+1 => JArr.getIdx rest n

/-- Python `list.append`, in-place append at the end of the list. -/
def JArr.append : JArr → JVal → JArr
  | .nil, v => .cons v .nil
  | .cons x rest, v => .cons x (JArr.append rest v)

/-- Python truthiness of a JSON value: None, False, 0, "", [] and the empty
    dict are falsy, everything else is truthy. -/
def truthy : JVal → Bool
  | .null => false
  | .bool b => b
  | .num n => n != 0
  | .str s => s != ""
  | .arr .nil => false
  | .arr (.cons _ _) => true
  | .obj .nil => false
  | .obj (.cons _ _ _) => true

/-- Truthiness of the result of `dict.get`, where a missing key yields the
    falsy None. -/
def truthyOpt : Option JVal → Bool
  | none => false
  | some v => truthy v

/-- Python membership `x in d` for a JSON-loaded dict: the keys are strings,
    so a non-string value is never equal to any key. -/
def dictContains (d : JObj) : Option JVal → Bool
  | some (.str s) => (JObj.get d s).isSome
  | _ => false

/-- The string a hashable Python value is coerced to when used as a dict key
    under json.dump; lists and dicts are unhashable (TypeError on dict
    assignment, caught by the handler and turned into a 500). -/
def pyKeyStr : JVal → Option String
  | .str s => some s
  | .num n => some (toString n)
  | .bool true => some "true"
  | .bool false => some "false"
  | .null => some "null"
  | .arr _ => none
  | .obj _ => none

def pyKeyStrOpt : Option JVal → Option String
  | none => none
  | some v => pyKeyStr v

/-- Response body of shape `jsonify(message=s)`. -/
def jmsg (s : String) : JVal := .obj (.cons "message" (.str s) .nil)

/-- Error response body of shape `jsonify(message=m, error=str(e))`. -/
def jerr (m e : String) : JVal :=
  .obj (.cons "message" (.str m) (.cons "error" (.str e) .nil))

structure RegisterResult where
  status : Nat
  body : JVal
  tutors : JObj

structure ListResult where
  status : Nat
  body : JVal

structure SelectResult where
  status : Nat
  body : JVal
  tutors : JObj
  students : JObj

structure NotifResult where
  status : Nat
  body : JVal

/-- Embedding of register_tutor (src/app.py lines 51-74).  State is the
    persisted tutor map (the handler loads it, mutates it and saves it back);
    the result carries the HTTP status, the JSON body and the new map. -/
def register_tutor (body : JObj) (tutors : JObj) : RegisterResult :=
  let tid := JObj.get body "id"
  if !truthyOpt tid then
    ⟨400, jmsg "Tutor ID is required", tutors⟩
  else
    match pyKeyStrOpt tid with
    | some key =>
        ⟨201, jmsg "Tutor profile saved successfully!",
          JObj.set tutors key (.obj (JObj.set body "notifications" (.arr .nil)))⟩
    | none =>
        ⟨500, jerr "Failed to save tutor profile" "unhashable type", tutors⟩

/-- Embedding of register_student (src/app.py lines 76-95). -/
def register_student (body : JObj) (students : JObj) : RegisterResult :=
  let sid := JObj.get body "id"
  if !truthyOpt sid then
    ⟨400, jmsg "Student ID is required", students⟩
  else
    match pyKeyStrOpt sid with
    | some key =>
        ⟨201, jmsg "Student profile saved successfully!", JObj.set students key (.obj body)⟩
    | none =>
        ⟨500, jerr "Failed to save student profile" "unhashable type", students⟩

/-- The list comprehension of get_all_tutors (src/app.py line 109): strips
    the notifications field from every tutor record, in order.  Fails (none)
    when some stored value is not a dict, in which case `.items()` raises and
    the handler answers 500. -/
def stripTutors : JObj → Option JArr
  | .nil => some .nil
  | .cons _ v rest =>
      match v with
      | .obj fields =>
          match stripTutors rest with
          | some tail => some (.cons (.obj (JObj.eraseKey fields "notifications")) tail)
          | none => none
      | _ => none

/-- Embedding of get_all_tutors (src/app.py lines 97-113). -/
def get_all_tutors (tutors : JObj) : ListResult :=
  match stripTutors tutors with
  | some l => ⟨200, .arr l⟩
  | none => ⟨500, jerr "Failed to retrieve tutor data" "object has no attribute items"⟩

/-- Embedding of select_tutor (src/app.py lines 115-149).  `now` stands for
    datetime.now().isoformat(), passed in since the clock is external input.
    The result carries both persisted maps: the student document is loaded
    but never saved, so the student map passes through unchanged. -/
def select_tutor (body : JObj) (now : String) (tutors students : JObj) : SelectResult :=
  let tid := JObj.get body "tutorId"
  let sid := JObj.get body "studentId"
  if !truthyOpt tid || !truthyOpt sid then
    ⟨400, jmsg "Tutor ID and Student ID are required", tutors, students⟩
  else if !dictContains tutors tid || !dictContains students sid then
    ⟨404, jmsg "Tutor or student not found", tutors, students⟩
  else
    match tid, sid with
    | some (.str ts), some (.str ss) =>
        let notif : JVal := .obj (.cons "student_id" (.str ss)
          (.cons "message" (.str ("Student " ++ ss ++ " is interested in your services."))
          (.cons "timestamp" (.str now) .nil)))
        match JObj.get tutors ts with
        | some (.obj fields) =>
            match JObj.get fields "notifications" with
            | some (.arr ns) =>
                ⟨200, jmsg "Tutor notified successfully!",
                  JObj.set tutors ts
                    (.obj (JObj.set fields "notifications" (.arr (JArr.append ns notif)))),
                  students⟩
            | some _ =>
                -- non-list notifications value: AttributeError on .append, caught as 500
                ⟨500, jerr "Failed to notify tutor" "object has no attribute append",
                  tutors, students⟩
            | none =>
                -- KeyError('notifications'); str(e) is "'notifications'"
                ⟨500, jerr "Failed to notify tutor" "'notifications'", tutors, students⟩
        | some _ =>
            -- stored record is not a dict: subscripting raises, caught as 500
            ⟨500, jerr "Failed to notify tutor" "object is not subscriptable",
              tutors, students⟩
        | none =>
            -- unreachable: dictContains tutors tid succeeded above
            ⟨500, jerr "Failed to notify tutor" "unreachable", tutors, students⟩
    | _, _ =>
        -- unreachable: dictContains requires both ids to be strings
        ⟨404, jmsg "Tutor or student not found", tutors, students⟩

/-- Embedding of get_tutor_notifications (src/app.py lines 151-167).
    Existence is decided by `if not tutor_profile`, i.e. truthiness of the
    looked-up record, and the notifications field is read with a default of
    the empty list. -/
def get_tutor_notifications (tutor_id : String) (tutors : JObj) : NotifResult :=
  let prof := JObj.get tutors tutor_id
  if !truthyOpt prof then
    ⟨404, jmsg "Tutor not found"⟩
  else
    match prof with
    | some (.obj fields) =>
        ⟨200, .obj (.cons "notifications"
          ((JObj.get fields "notifications").getD (.arr .nil)) .nil)⟩
    | _ =>
        -- truthy non-dict record: .get raises AttributeError, caught as 500
        ⟨500, jerr "Failed to retrieve notifications" "object has no attribute get"⟩

/-- Every stored value of the map is a dict (a JSON object); this is the
    shape of every record created through register_tutor. -/
def allValuesObj : JObj → Bool
  | .nil => true
  | .cons _ v rest =>
      (match v with
       | .obj _ => true
       | _ => false) && allValuesObj rest

-- ------------------------------------------------------------------
-- The Store (src/app.py lines 35-47): save_data is json.dump with
-- indent=4 and load_data is json.load, modelled on file contents.
-- The model is restricted to integer numerals and to strings whose
-- characters are printable ASCII (wfV below), where json.dump only
-- needs the quote and backslash escapes.
-- ------------------------------------------------------------------

/-- JSON whitespace. -/
def isWs (c : Char) : Bool := c = ' ' || c = '\t' || c = '\n' || c = '\r'

/-- The continuation after a numeral must not start with a digit for the
    numeral to end there; in the dump format it starts with a comma, a
    newline or a closing bracket. -/
def noDigit : List Char → Prop
  | [] => True
  | c :: _ => c.isDigit = false

def digitChar (n : Nat) : Char :=
  if n = 0 then '0' else if n = 1 then '1' else if n = 2 then '2'
  else if n = 3 then '3' else if n = 4 then '4' else if n = 5 then '5'
  else if n = 6 then '6' else if n = 7 then '7' else if n = 8 then '8' else '9'

/-- Decimal digits of a natural number, most significant first. -/
def natChars (n : Nat) : List Char :=
  if n < 10 then [digitChar n]
  else natChars (n / 10) ++ [digitChar (n % 10)]
termination_by n
decreasing_by exact Nat.div_lt_self (by omega) (by omega)

/-- Value of a string of decimal digits. -/
def digitsToNat (ds : List Char) : Nat :=
  ds.foldl (fun a c => a * 10 + (c.toNat - 48)) 0

/-- Decimal numeral of an integer, as json.dump prints it. -/
def intRepr : Int → List Char
  | .ofNat m => natChars m
  | .negSucc m => '-' :: natChars (m + 1)

/-- Escaping of one printable-ASCII character inside a JSON string, as done
    by json.dump: only the quote and the backslash need escapes. -/
def escapeChar (c : Char) : List Char :=
  if c = '"' then ['\\', '"'] else if c = '\\' then ['\\', '\\'] else [c]

def escChars : List Char → List Char
  | [] => []
  | c :: cs => escapeChar c ++ escChars cs

/-- A JSON string literal: quotes around the escaped characters. -/
def dumpStr (s : String) : List Char := '"' :: (escChars s.data ++ ['"'])

/-- Indentation written by json.dump(..., indent=4) at a nesting level. -/
def indentPad (lvl : Nat) : List Char := List.replicate (4 * lvl) ' '

mutual
/-- The characters json.dump(value, f, indent=4) writes for a value sitting
    at nesting level lvl. -/
def dumpVal (lvl : Nat) : JVal → List Char
  | .num n => intRepr n
  | .str s => dumpStr s
  | .bool false => 'f' :: ['a', 'l', 's', 'e']
  | .bool true => 't' :: ['r', 'u', 'e']
  | .null => 'n' :: ['u', 'l', 'l']
  | .arr .nil => ['[', ']']
  | .arr (.cons v rest) =>
      '[' :: (('\n' :: indentPad (lvl + 1)) ++ (dumpVal (lvl + 1) v
        ++ (dumpArrRest (lvl + 1) rest ++ (('\n' :: indentPad lvl) ++ [']']))))
  | .obj .nil => ['{', '}']
  | .obj (.cons k v rest) =>
      '{' :: (('\n' :: indentPad (lvl + 1)) ++ (dumpStr k
        ++ (':' :: ' ' :: (dumpVal (lvl + 1) v
          ++ (dumpObjRest (lvl + 1) rest ++ (('\n' :: indentPad lvl) ++ ['}']))))))

/-- The remaining elements of a non-empty array: a comma, a newline, the
    indentation and the next element, repeatedly. -/
def dumpArrRest (lvl : Nat) : JArr → List Char
  | .nil => []
  | .cons v rest =>
      ',' :: (('\n' :: indentPad lvl) ++ (dumpVal lvl v ++ dumpArrRest lvl rest))

/-- The remaining entries of a non-empty object. -/
def dumpObjRest (lvl : Nat) : JObj → List Char
  | .nil => []
  | .cons k v rest =>
      ',' :: (('\n' :: indentPad lvl) ++ (dumpStr k
        ++ (':' :: ' ' :: (dumpVal lvl v ++ dumpObjRest lvl rest))))
end

/-- Unescaping of the character following a backslash (the Unicode escape
    form is not modelled). -/
def unescape (c : Char) : Option Char :=
  if c = '"' then some '"'
  else if c = '\\' then some '\\'
  else if c = '/' then some '/'
  else if c = 'n' then some '\n'
  else if c = 't' then some '\t'
  else if c = 'r' then some '\r'
  else if c = 'b' then some (Char.ofNat 8)
  else if c = 'f' then some (Char.ofNat 12)
  else none

/-- Reads the body of a JSON string literal up to the closing quote,
    returning the decoded characters and the unconsumed suffix. -/
def parseStringChars : List Char → Option (List Char × List Char)
  | [] => none
  | c :: rest =>
      if c = '"' then some ([], rest)
      else if c = '\\' then
        match rest with
        | [] => none
        | e :: rest1 =>
            match unescape e with
            | some ec =>
                match parseStringChars rest1 with
                | some (sc, rest2) => some (ec :: sc, rest2)
                | none => none
            | none => none
      else
        match parseStringChars rest with
        | some (sc, rest2) => some (c :: sc, rest2)
        | none => none

/-- Whether a list starts with the given character. -/
def headIs : List Char → Char → Bool
  | [], _ => false
  | x :: _, c => x == c

mutual
/-- Recursive-descent JSON parser on a fuel budget: one value, leading
    whitespace allowed, returning the value and the unconsumed suffix. -/
def parseVal : Nat → List Char → Option (JVal × List Char)
  | 0, _ => none
  | fuel + 1, cs =>
      match List.dropWhile isWs cs with
      | [] => none
      | c :: rest =>
          if c.isDigit then
            some (.num (digitsToNat (List.takeWhile Char.isDigit (c :: rest)) : Int),
              List.dropWhile Char.isDigit (c :: rest))
          else if c = '-' then
            if (List.takeWhile Char.isDigit rest).isEmpty then none
            else
              some (.num (-(digitsToNat (List.takeWhile Char.isDigit rest) : Int)),
                List.dropWhile Char.isDigit rest)
          else if c = '"' then
            match parseStringChars rest with
            | some (sc, rest1) => some (.str (String.mk sc), rest1)
            | none => none
          else if c = '[' then
            if headIs (List.dropWhile isWs rest) ']' then
              some (.arr .nil, List.tail (List.dropWhile isWs rest))
            else
              match parseArrItems fuel rest with
              | some (items, rest1) => some (.arr items, rest1)
              | none => none
          else if c = '{' then
            if headIs (List.dropWhile isWs rest) '}' then
              some (.obj .nil, List.tail (List.dropWhile isWs rest))
            else
              match parseObjItems fuel rest with
              | some (items, rest1) => some (.obj items, rest1)
              | none => none
          else if c = 'n' then
            match rest with
            | 'u' :: 'l' :: 'l' :: rest1 => some (.null, rest1)
            | _ => none
          else if c = 't' then
            match rest with
            | 'r' :: 'u' :: 'e' :: rest1 => some (.bool true, rest1)
            | _ => none
          else if c = 'f' then
            match rest with
            | 'a' :: 'l' :: 's' :: 'e' :: rest1 => some (.bool false, rest1)
            | _ => none
          else none

/-- One or more comma-separated array elements followed by the closing
    bracket. -/
def parseArrItems : Nat → List Char → Option (JArr × List Char)
  | 0, _ => none
  | fuel + 1, cs =>
      match parseVal fuel cs with
      | none => none
      | some (v, rest) =>
          match List.dropWhile isWs rest with
          | ',' :: rest1 =>
              (match parseArrItems fuel rest1 with
               | some (items, rest2) => some (.cons v items, rest2)
               | none => none)
          | ']' :: rest1 => some (.cons v .nil, rest1)
          | _ => none

/-- One or more comma-separated key-value entries followed by the closing
    brace. -/
def parseObjItems : Nat → List Char → Option (JObj × List Char)
  | 0, _ => none
  | fuel + 1, cs =>
      match List.dropWhile isWs cs with
      | '"' :: rest =>
          (match parseStringChars rest with
           | none => none
           | some (kc, rest1) =>
               match List.dropWhile isWs rest1 with
               | ':' :: rest2 =>
                   (match parseVal fuel rest2 with
                    | none => none
                    | some (v, rest3) =>
                        match List.dropWhile isWs rest3 with
                        | ',' :: rest4 =>
                            (match parseObjItems fuel rest4 with
                             | some (items, rest5) =>
                                 some (.cons (String.mk kc) v items, rest5)
                             | none => none)
                        | '}' :: rest4 => some (.cons (String.mk kc) v .nil, rest4)
                        | _ => none)
               | _ => none)
      | _ => none
end

mutual
/-- Structural size of a value, a lower bound on the parsing fuel it needs. -/
def sizeV : JVal → Nat
  | .arr a => 1 + sizeA a
  | .obj o => 1 + sizeO o
  | _ => 1

def sizeA : JArr → Nat
  | .nil => 1
  | .cons v a => 1 + sizeV v + sizeA a

def sizeO : JObj → Nat
  | .nil => 1
  | .cons _ v o => 1 + sizeV v + sizeO o
end

/-- Printable ASCII, the characters json.dump writes either unescaped or
    with a single backslash escape. -/
def wfChar (c : Char) : Bool := 32 ≤ c.toNat && c.toNat ≤ 126

def wfChars : List Char → Bool
  | [] => true
  | c :: cs => wfChar c && wfChars cs

def wfStr (s : String) : Bool := wfChars s.data

mutual
/-- Values on which dumpVal coincides with json.dump(indent=4): integer
    numbers, printable-ASCII strings and keys. -/
def wfV : JVal → Bool
  | .null => true
  | .bool _ => true
  | .num _ => true
  | .str s => wfStr s
  | .arr a => wfA a
  | .obj o => wfO o

def wfA : JArr → Bool
  | .nil => true
  | .cons v a => wfV v && wfA a

def wfO : JObj → Bool
  | .nil => true
  | .cons k v o => wfStr k && wfV v && wfO o
end

/-- save_data (src/app.py lines 42-47): the file contents that json.dump
    writes for a document, a mapping from id to record, with indent=4. -/
def save_data (m : JObj) : String := String.mk (dumpVal 0 (.obj m))

/-- load_data (src/app.py lines 35-40): json.load on the file contents;
    succeeds exactly when the whole text is one JSON value, surrounding
    whitespace allowed. -/
def load_data (s : String) : Option JVal :=
  match parseVal (s.data.length + 1) s.data with
  | some (v, rest) => if List.dropWhile isWs rest = [] then some v else none
  | none => none


-- ------------------------------------------------------------------
-- Theorems.  First, lemmas about the dict and list primitives.
-- ------------------------------------------------------------------

theorem JObj.get_set_self : ∀ (d : JObj) (k : String) (v : JVal),
    JObj.get (JObj.set d k v) k = some v
  | .nil, k, v => by simp [JObj.set, JObj.get]
  | .cons k0 v0 rest, k, v => by
      by_cases h : k0 = k
      · simp [JObj.set, JObj.get, h]
      · simp [JObj.set, JObj.get, h, JObj.get_set_self rest k v]

theorem JObj.get_set_ne : ∀ (d : JObj) (k k' : String) (v : JVal), k' ≠ k →
    JObj.get (JObj.set d k v) k' = JObj.get d k'
  | .nil, k, k', v, h => by simp [JObj.set, JObj.get, Ne.symm h]
  | .cons k0 v0 rest, k, k', v, h => by
      by_cases h0 : k0 = k
      · simp [JObj.set, JObj.get, h0, Ne.symm h]
      · by_cases h1 : k0 = k'
        · simp [JObj.set, JObj.get, h0, h1, h]
        · simp [JObj.set, JObj.get, h0, h1, JObj.get_set_ne rest k k' v h]

theorem JObj.get_eraseKey_self : ∀ (d : JObj) (k : String),
    JObj.get (JObj.eraseKey d k) k = none
  | .nil, k => rfl
  | .cons k0 v0 rest, k => by
      by_cases h : k0 = k
      · simp [JObj.eraseKey, h, JObj.get_eraseKey_self rest k]
      · simp [JObj.eraseKey, JObj.get, h, JObj.get_eraseKey_self rest k]

theorem JObj.get_eraseKey_ne : ∀ (d : JObj) (k k' : String), k' ≠ k →
    JObj.get (JObj.eraseKey d k) k' = JObj.get d k'
  | .nil, k, k', h => rfl
  | .cons k0 v0 rest, k, k', h => by
      by_cases h0 : k0 = k
      · simp [JObj.eraseKey, JObj.get, h0, Ne.symm h, JObj.get_eraseKey_ne rest k k' h]
      · by_cases h1 : k0 = k'
        · simp [JObj.eraseKey, JObj.get, h0, h1, h]
        · simp [JObj.eraseKey, JObj.get, h0, h1, JObj.get_eraseKey_ne rest k k' h]

theorem JArr.length_append : ∀ (a : JArr) (v : JVal),
    JArr.length (JArr.append a v) = JArr.length a + 1
  | .nil, _ => rfl
  | .cons x rest, v => by
      simp [JArr.append, JArr.length, JArr.length_append rest v]

theorem JArr.getIdx_append_lt : ∀ (a : JArr) (v : JVal) (i : Nat),
    i < JArr.length a → JArr.getIdx (JArr.append a v) i = JArr.getIdx a i
  | .nil, v, i, h => by simp [JArr.length] at h
  | .cons x rest, v, 0, _ => rfl
  | .cons x rest, v, i+1, h => by
      have hi : i < JArr.length rest := by simp [JArr.length] at h; omega
      simpa [JArr.append, JArr.getIdx] using JArr.getIdx_append_lt rest v i hi

theorem JArr.getIdx_append_len : ∀ (a : JArr) (v : JVal),
    JArr.getIdx (JArr.append a v) (JArr.length a) = some v
  | .nil, _ => rfl
  | .cons x rest, v => by
      simpa [JArr.append, JArr.length, JArr.getIdx] using JArr.getIdx_append_len rest v

/-- Membership `x in d` holds exactly for string values whose key is present. -/
theorem dictContains_true {d : JObj} {o : Option JVal} (h : dictContains d o = true) :
    ∃ s, o = some (.str s) ∧ (JObj.get d s).isSome = true := by
  cases o with
  | none => simp [dictContains] at h
  | some v =>
      cases v with
      | str s => exact ⟨s, rfl, h⟩
      | null => simp [dictContains] at h
      | bool b => simp [dictContains] at h
      | num n => simp [dictContains] at h
      | arr a => simp [dictContains] at h
      | obj o => simp [dictContains] at h

/-- C4: a RegisterTutor request whose body lacks an id or carries a falsy id
    (such as the empty string) is answered 400 with message
    "Tutor ID is required", and the persisted tutor map is unchanged. -/
theorem register_tutor_missing_id (body tutors : JObj)
    (h : truthyOpt (JObj.get body "id") = false) :
    register_tutor body tutors = ⟨400, jmsg "Tutor ID is required", tutors⟩ := by
  simp [register_tutor, h]

theorem register_tutor_missing_id_witness :
    register_tutor (.cons "id" (.str "") (.cons "name" (.str "Jane") .nil)) .nil
      = ⟨400, jmsg "Tutor ID is required", .nil⟩ :=
  register_tutor_missing_id (.cons "id" (.str "") (.cons "name" (.str "Jane") .nil)) .nil rfl

/-- C3: a RegisterTutor request with a truthy id stores the incoming record
    under that id with its notifications field replaced by the empty list,
    overwrites whatever record was previously stored under the same id (the
    statement holds for every prior tutor map), preserves every other field
    of the body, and answers 201. -/
theorem register_tutor_success (body tutors : JObj) (idv : JVal) (key : String)
    (hid : JObj.get body "id" = some idv) (htr : truthy idv = true)
    (hkey : pyKeyStr idv = some key) :
    (register_tutor body tutors).status = 201 ∧
    ∃ stored, JObj.get (register_tutor body tutors).tutors key = some (.obj stored) ∧
      JObj.get stored "notifications" = some (.arr .nil) ∧
      ∀ k, k ≠ "notifications" → JObj.get stored k = JObj.get body k := by
  have hres : register_tutor body tutors
      = ⟨201, jmsg "Tutor profile saved successfully!",
          JObj.set tutors key (.obj (JObj.set body "notifications" (.arr .nil)))⟩ := by
    simp [register_tutor, hid, truthyOpt, htr, pyKeyStrOpt, hkey]
  rw [hres]
  refine ⟨rfl, JObj.set body "notifications" (.arr .nil), ?_, ?_, ?_⟩
  · exact JObj.get_set_self tutors key _
  · exact JObj.get_set_self body "notifications" _
  · intro k hk
    exact JObj.get_set_ne body "notifications" k _ hk

theorem register_tutor_success_witness :
    (register_tutor (.cons "id" (.str "t1") (.cons "name" (.str "Jane") .nil)) .nil).status
        = 201 ∧
    ∃ stored,
      JObj.get (register_tutor (.cons "id" (.str "t1") (.cons "name" (.str "Jane") .nil))
          .nil).tutors "t1" = some (.obj stored) ∧
      JObj.get stored "notifications" = some (.arr .nil) ∧
      ∀ k, k ≠ "notifications" →
        JObj.get stored k
          = JObj.get (.cons "id" (.str "t1") (.cons "name" (.str "Jane") .nil)) k :=
  register_tutor_success (.cons "id" (.str "t1") (.cons "name" (.str "Jane") .nil)) .nil
    (.str "t1") "t1" rfl rfl rfl

/-- C10: GetTutorNotifications decides existence by truthiness, not key
    membership: a key that is present but maps to a falsy record (for
    instance the empty dict or the empty string) is answered 404. -/
theorem get_tutor_notifications_truthiness (tutors : JObj) (tid : String) (v : JVal)
    (hget : JObj.get tutors tid = some v) (hfalsy : truthy v = false) :
    get_tutor_notifications tid tutors = ⟨404, jmsg "Tutor not found"⟩ := by
  simp [get_tutor_notifications, hget, truthyOpt, hfalsy]

theorem get_tutor_notifications_truthiness_witness :
    get_tutor_notifications "t2" (.cons "t2" (.str "") .nil)
      = ⟨404, jmsg "Tutor not found"⟩ :=
  get_tutor_notifications_truthiness (.cons "t2" (.str "") .nil) "t2" (.str "") rfl rfl

/-- C6 counterexample: the id "t1" is a key of the tutor map, yet because its
    record is the empty (falsy) dict, the handler answers 404 where the claim
    promises a 200 with the notifications default. -/
theorem get_tutor_notifications_key_present_404 :
    (JObj.get (.cons "t1" (.obj .nil) .nil) "t1").isSome = true ∧
    get_tutor_notifications "t1" (.cons "t1" (.obj .nil) .nil)
      = ⟨404, jmsg "Tutor not found"⟩ :=
  ⟨rfl, rfl⟩

/-- C6 (amended): GetTutorNotifications answers 404 whenever the looked-up
    record is missing or falsy (in particular whenever the id is not a key);
    when the record is a truthy dict it answers 200 with the record's
    notifications sequence, defaulting to the empty sequence if absent. -/
theorem get_tutor_notifications_spec (tutors : JObj) (tid : String) :
    (truthyOpt (JObj.get tutors tid) = false →
      get_tutor_notifications tid tutors = ⟨404, jmsg "Tutor not found"⟩) ∧
    (∀ fields, JObj.get tutors tid = some (.obj fields) → truthy (.obj fields) = true →
      ∃ s, get_tutor_notifications tid tutors
          = ⟨200, .obj (.cons "notifications" s .nil)⟩ ∧
        (JObj.get fields "notifications" = some s ∨
          (JObj.get fields "notifications" = none ∧ s = .arr .nil))) := by
  constructor
  · intro h
    simp [get_tutor_notifications, h]
  · intro fields hget htr
    refine ⟨(JObj.get fields "notifications").getD (.arr .nil), ?_, ?_⟩
    · simp [get_tutor_notifications, hget, truthyOpt, htr]
    · cases hN : JObj.get fields "notifications" <;> simp [hN]

theorem get_tutor_notifications_spec_witness :
    get_tutor_notifications "zz"
        (.cons "t1" (.obj (.cons "id" (.str "t1") .nil)) .nil)
      = ⟨404, jmsg "Tutor not found"⟩ ∧
    ∃ s, get_tutor_notifications "t1"
        (.cons "t1" (.obj (.cons "id" (.str "t1") .nil)) .nil)
        = ⟨200, .obj (.cons "notifications" s .nil)⟩ ∧
      (JObj.get (.cons "id" (.str "t1") .nil) "notifications" = some s ∨
        (JObj.get (.cons "id" (.str "t1") .nil) "notifications" = none ∧ s = .arr .nil)) :=
  ⟨(get_tutor_notifications_spec (.cons "t1" (.obj (.cons "id" (.str "t1") .nil)) .nil)
      "zz").1 rfl,
   (get_tutor_notifications_spec (.cons "t1" (.obj (.cons "id" (.str "t1") .nil)) .nil)
      "t1").2 (.cons "id" (.str "t1") .nil) rfl rfl⟩

/-- C2: a SelectTutor request with truthy tutorId and studentId where the
    tutorId is not a key of the tutor map or the studentId is not a key of
    the student map is answered 404 with "Tutor or student not found", no
    notification is appended, and both persisted maps are unchanged. -/
theorem select_tutor_not_found (body : JObj) (now : String) (tutors students : JObj)
    (ht : truthyOpt (JObj.get body "tutorId") = true)
    (hs : truthyOpt (JObj.get body "studentId") = true)
    (hmem : dictContains tutors (JObj.get body "tutorId") = false ∨
            dictContains students (JObj.get body "studentId") = false) :
    select_tutor body now tutors students
      = ⟨404, jmsg "Tutor or student not found", tutors, students⟩ := by
  rcases hmem with hm | hm <;> simp [select_tutor, ht, hs, hm]

theorem select_tutor_not_found_witness :
    select_tutor (.cons "tutorId" (.str "t9") (.cons "studentId" (.str "s1") .nil))
        "2024-01-01T00:00:00"
        (.cons "t1" (.obj (.cons "id" (.str "t1") .nil)) .nil)
        (.cons "s1" (.obj (.cons "id" (.str "s1") .nil)) .nil)
      = ⟨404, jmsg "Tutor or student not found",
          .cons "t1" (.obj (.cons "id" (.str "t1") .nil)) .nil,
          .cons "s1" (.obj (.cons "id" (.str "s1") .nil)) .nil⟩ :=
  select_tutor_not_found
    (.cons "tutorId" (.str "t9") (.cons "studentId" (.str "s1") .nil))
    "2024-01-01T00:00:00"
    (.cons "t1" (.obj (.cons "id" (.str "t1") .nil)) .nil)
    (.cons "s1" (.obj (.cons "id" (.str "s1") .nil)) .nil)
    rfl rfl (Or.inl rfl)

/-- C1 counterexample: both ids are truthy and both are keys of their maps,
    yet the stored tutor record has no notifications field, so the handler
    answers 500 (not 200) and appends nothing: the tutor map is returned
    unchanged. -/
theorem select_tutor_appends_counterexample :
    truthyOpt (JObj.get (.cons "tutorId" (.str "t1")
        (.cons "studentId" (.str "s1") .nil)) "tutorId") = true ∧
    truthyOpt (JObj.get (.cons "tutorId" (.str "t1")
        (.cons "studentId" (.str "s1") .nil)) "studentId") = true ∧
    dictContains (.cons "t1" (.obj (.cons "id" (.str "t1") .nil)) .nil)
        (JObj.get (.cons "tutorId" (.str "t1")
          (.cons "studentId" (.str "s1") .nil)) "tutorId") = true ∧
    dictContains (.cons "s1" (.obj (.cons "id" (.str "s1") .nil)) .nil)
        (JObj.get (.cons "tutorId" (.str "t1")
          (.cons "studentId" (.str "s1") .nil)) "studentId") = true ∧
    select_tutor (.cons "tutorId" (.str "t1") (.cons "studentId" (.str "s1") .nil))
        "2024-01-01T00:00:00"
        (.cons "t1" (.obj (.cons "id" (.str "t1") .nil)) .nil)
        (.cons "s1" (.obj (.cons "id" (.str "s1") .nil)) .nil)
      = ⟨500, jerr "Failed to notify tutor" "'notifications'",
          .cons "t1" (.obj (.cons "id" (.str "t1") .nil)) .nil,
          .cons "s1" (.obj (.cons "id" (.str "s1") .nil)) .nil⟩ :=
  ⟨rfl, rfl, rfl, rfl, rfl⟩

/-- C1 (amended): when both ids are truthy strings present as keys and the
    addressed tutor's stored record carries a notifications list (which is
    the case for every record created by RegisterTutor), SelectTutor answers
    200 and appends exactly one notification carrying the student id, the
    templated message and the timestamp: the sequence grows by exactly one,
    every earlier entry is unchanged, and the new last entry is the freshly
    built notification. -/
theorem select_tutor_appends (body : JObj) (now : String) (tutors students : JObj)
    (ts ss : String) (fields : JObj) (ns : JArr) (sv : JVal)
    (hbt : JObj.get body "tutorId" = some (.str ts)) (hts : ts ≠ "")
    (hbs : JObj.get body "studentId" = some (.str ss)) (hss : ss ≠ "")
    (hT : JObj.get tutors ts = some (.obj fields))
    (hS : JObj.get students ss = some sv)
    (hN : JObj.get fields "notifications" = some (.arr ns)) :
    (select_tutor body now tutors students).status = 200 ∧
    ∃ fields', JObj.get (select_tutor body now tutors students).tutors ts
        = some (.obj fields') ∧
      ∃ ns', JObj.get fields' "notifications" = some (.arr ns') ∧
        JArr.length ns' = JArr.length ns + 1 ∧
        (∀ i, i < JArr.length ns → JArr.getIdx ns' i = JArr.getIdx ns i) ∧
        JArr.getIdx ns' (JArr.length ns)
          = some (.obj (.cons "student_id" (.str ss)
              (.cons "message"
                (.str ("Student " ++ ss ++ " is interested in your services."))
              (.cons "timestamp" (.str now) .nil)))) := by
  have hts' : (ts != "") = true := by simp [bne_iff_ne, hts]
  have hss' : (ss != "") = true := by simp [bne_iff_ne, hss]
  have hres : select_tutor body now tutors students
      = ⟨200, jmsg "Tutor notified successfully!",
          JObj.set tutors ts
            (.obj (JObj.set fields "notifications"
              (.arr (JArr.append ns (.obj (.cons "student_id" (.str ss)
                (.cons "message"
                  (.str ("Student " ++ ss ++ " is interested in your services."))
                (.cons "timestamp" (.str now) .nil)))))))),
          students⟩ := by
    simp [select_tutor, hbt, hbs, truthyOpt, truthy, hts', hss',
      dictContains, hT, hS, hN]
  rw [hres]
  refine ⟨rfl, JObj.set fields "notifications" _, JObj.get_set_self tutors ts _,
    JArr.append ns _, JObj.get_set_self fields "notifications" _,
    JArr.length_append ns _, ?_, JArr.getIdx_append_len ns _⟩
  intro i hi
  exact JArr.getIdx_append_lt ns _ i hi

theorem select_tutor_appends_witness :
    (select_tutor (.cons "tutorId" (.str "t1") (.cons "studentId" (.str "s1") .nil))
        "2024-01-01T00:00:00"
        (.cons "t1" (.obj (.cons "id" (.str "t1")
          (.cons "notifications" (.arr .nil) .nil))) .nil)
        (.cons "s1" (.obj (.cons "id" (.str "s1") .nil)) .nil)).status = 200 ∧
    ∃ fields', JObj.get (select_tutor
        (.cons "tutorId" (.str "t1") (.cons "studentId" (.str "s1") .nil))
        "2024-01-01T00:00:00"
        (.cons "t1" (.obj (.cons "id" (.str "t1")
          (.cons "notifications" (.arr .nil) .nil))) .nil)
        (.cons "s1" (.obj (.cons "id" (.str "s1") .nil)) .nil)).tutors "t1"
        = some (.obj fields') ∧
      ∃ ns', JObj.get fields' "notifications" = some (.arr ns') ∧
        JArr.length ns' = JArr.length .nil + 1 ∧
        (∀ i, i < JArr.length .nil → JArr.getIdx ns' i = JArr.getIdx .nil i) ∧
        JArr.getIdx ns' (JArr.length .nil)
          = some (.obj (.cons "student_id" (.str "s1")
              (.cons "message"
                (.str ("Student " ++ "s1" ++ " is interested in your services."))
              (.cons "timestamp" (.str "2024-01-01T00:00:00") .nil)))) :=
  select_tutor_appends
    (.cons "tutorId" (.str "t1") (.cons "studentId" (.str "s1") .nil))
    "2024-01-01T00:00:00"
    (.cons "t1" (.obj (.cons "id" (.str "t1")
      (.cons "notifications" (.arr .nil) .nil))) .nil)
    (.cons "s1" (.obj (.cons "id" (.str "s1") .nil)) .nil)
    "t1" "s1" (.cons "id" (.str "t1") (.cons "notifications" (.arr .nil) .nil)) .nil
    (.obj (.cons "id" (.str "s1") .nil))
    rfl (by decide) rfl (by decide) rfl rfl rfl

/-- C7: when both ids are truthy strings present as keys but the addressed
    tutor's stored record lacks a notifications field, the append raises a
    KeyError that the handler boundary converts into a 500 response whose
    body carries a message and an error field; no 200 is returned and the
    maps are unchanged. -/
theorem select_tutor_missing_notifications (body : JObj) (now : String)
    (tutors students : JObj) (ts ss : String) (fields : JObj) (sv : JVal)
    (hbt : JObj.get body "tutorId" = some (.str ts)) (hts : ts ≠ "")
    (hbs : JObj.get body "studentId" = some (.str ss)) (hss : ss ≠ "")
    (hT : JObj.get tutors ts = some (.obj fields))
    (hS : JObj.get students ss = some sv)
    (hN : JObj.get fields "notifications" = none) :
    select_tutor body now tutors students
      = ⟨500, jerr "Failed to notify tutor" "'notifications'", tutors, students⟩ := by
  have hts' : (ts != "") = true := by simp [bne_iff_ne, hts]
  have hss' : (ss != "") = true := by simp [bne_iff_ne, hss]
  simp [select_tutor, hbt, hbs, truthyOpt, truthy, hts', hss',
    dictContains, hT, hS, hN]

theorem select_tutor_missing_notifications_witness :
    select_tutor (.cons "tutorId" (.str "t3") (.cons "studentId" (.str "s1") .nil))
        "2024-01-01T00:00:00"
        (.cons "t3" (.obj (.cons "id" (.str "t3") .nil)) .nil)
        (.cons "s1" (.obj (.cons "id" (.str "s1") .nil)) .nil)
      = ⟨500, jerr "Failed to notify tutor" "'notifications'",
          .cons "t3" (.obj (.cons "id" (.str "t3") .nil)) .nil,
          .cons "s1" (.obj (.cons "id" (.str "s1") .nil)) .nil⟩ :=
  select_tutor_missing_notifications
    (.cons "tutorId" (.str "t3") (.cons "studentId" (.str "s1") .nil))
    "2024-01-01T00:00:00"
    (.cons "t3" (.obj (.cons "id" (.str "t3") .nil)) .nil)
    (.cons "s1" (.obj (.cons "id" (.str "s1") .nil)) .nil)
    "t3" "s1" (.cons "id" (.str "t3") .nil) (.obj (.cons "id" (.str "s1") .nil))
    rfl (by decide) rfl (by decide) rfl rfl rfl

/-- C9: whenever SelectTutor answers 200, the student map is returned
    exactly as loaded (the student document is never written), every tutor
    record other than the addressed one is unchanged, and in the addressed
    record every field other than notifications is unchanged. -/
theorem select_tutor_frame (body : JObj) (now : String) (tutors students : JObj)
    (h : (select_tutor body now tutors students).status = 200) :
    (select_tutor body now tutors students).students = students ∧
    ∃ ts, JObj.get body "tutorId" = some (.str ts) ∧
      (∀ k, k ≠ ts →
        JObj.get (select_tutor body now tutors students).tutors k
          = JObj.get tutors k) ∧
      ∃ fields fields', JObj.get tutors ts = some (.obj fields) ∧
        JObj.get (select_tutor body now tutors students).tutors ts
          = some (.obj fields') ∧
        ∀ fld, fld ≠ "notifications" → JObj.get fields' fld = JObj.get fields fld := by
  cases h1 : (!truthyOpt (JObj.get body "tutorId")
      || !truthyOpt (JObj.get body "studentId")) with
  | true =>
      exfalso
      simp [select_tutor, h1] at h
  | false =>
      cases h2 : (!dictContains tutors (JObj.get body "tutorId")
          || !dictContains students (JObj.get body "studentId")) with
      | true =>
          exfalso
          simp [select_tutor, h1, h2] at h
      | false =>
          have h2' := h2
          simp only [Bool.or_eq_false_iff, Bool.not_eq_false'] at h2'
          obtain ⟨ts, hbt, hTs⟩ := dictContains_true h2'.1
          obtain ⟨ss, hbs, hSs⟩ := dictContains_true h2'.2
          obtain ⟨r, hT⟩ := Option.isSome_iff_exists.mp hTs
          obtain ⟨sv, hS⟩ := Option.isSome_iff_exists.mp hSs
          have h1' := h1
          simp only [Bool.or_eq_false_iff, Bool.not_eq_false'] at h1'
          rw [hbt] at h1'
          rw [hbs] at h1'
          obtain ⟨ht1, ht2⟩ := h1'
          have hd' := h2'
          rw [hbt] at hd'
          rw [hbs] at hd'
          obtain ⟨hd1, hd2⟩ := hd'
          cases r with
          | null => exfalso; simp [select_tutor, ht1, ht2, hd1, hd2, hbt, hbs, hT] at h
          | bool b => exfalso; simp [select_tutor, ht1, ht2, hd1, hd2, hbt, hbs, hT] at h
          | num n => exfalso; simp [select_tutor, ht1, ht2, hd1, hd2, hbt, hbs, hT] at h
          | str s => exfalso; simp [select_tutor, ht1, ht2, hd1, hd2, hbt, hbs, hT] at h
          | arr a => exfalso; simp [select_tutor, ht1, ht2, hd1, hd2, hbt, hbs, hT] at h
          | obj fields =>
              cases hN : JObj.get fields "notifications" with
              | none =>
                  exfalso
                  simp [select_tutor, ht1, ht2, hd1, hd2, hbt, hbs, hT, hN] at h
              | some nv =>
                  cases nv with
                  | null =>
                      exfalso
                      simp [select_tutor, ht1, ht2, hd1, hd2, hbt, hbs, hT, hN] at h
                  | bool b =>
                      exfalso
                      simp [select_tutor, ht1, ht2, hd1, hd2, hbt, hbs, hT, hN] at h
                  | num n =>
                      exfalso
                      simp [select_tutor, ht1, ht2, hd1, hd2, hbt, hbs, hT, hN] at h
                  | str s =>
                      exfalso
                      simp [select_tutor, ht1, ht2, hd1, hd2, hbt, hbs, hT, hN] at h
                  | obj o =>
                      exfalso
                      simp [select_tutor, ht1, ht2, hd1, hd2, hbt, hbs, hT, hN] at h
                  | arr ns =>
                      have hres : select_tutor body now tutors students
                          = ⟨200, jmsg "Tutor notified successfully!",
                              JObj.set tutors ts
                                (.obj (JObj.set fields "notifications"
                                  (.arr (JArr.append ns (.obj (.cons "student_id" (.str ss)
                                    (.cons "message"
                                      (.str ("Student " ++ ss ++
                                        " is interested in your services."))
                                    (.cons "timestamp" (.str now) .nil)))))))),
                              students⟩ := by
                        simp [select_tutor, ht1, ht2, hd1, hd2, hbt, hbs, hT, hN]
                      rw [hres]
                      refine ⟨rfl, ts, hbt, ?_, fields,
                        JObj.set fields "notifications" _, hT,
                        JObj.get_set_self tutors ts _, ?_⟩
                      · intro k hk
                        exact JObj.get_set_ne tutors ts k _ hk
                      · intro fld hfld
                        exact JObj.get_set_ne fields "notifications" fld _ hfld

theorem select_tutor_frame_witness :
    (select_tutor (.cons "tutorId" (.str "t1") (.cons "studentId" (.str "s1") .nil))
        "2024-01-01T00:00:00"
        (.cons "t1" (.obj (.cons "id" (.str "t1")
          (.cons "notifications" (.arr .nil) .nil)))
          (.cons "t2" (.obj (.cons "id" (.str "t2") .nil)) .nil))
        (.cons "s1" (.obj (.cons "id" (.str "s1") .nil)) .nil)).students
      = .cons "s1" (.obj (.cons "id" (.str "s1") .nil)) .nil ∧
    ∃ ts, JObj.get (.cons "tutorId" (.str "t1") (.cons "studentId" (.str "s1") .nil))
        "tutorId" = some (.str ts) ∧
      (∀ k, k ≠ ts →
        JObj.get (select_tutor
          (.cons "tutorId" (.str "t1") (.cons "studentId" (.str "s1") .nil))
          "2024-01-01T00:00:00"
          (.cons "t1" (.obj (.cons "id" (.str "t1")
            (.cons "notifications" (.arr .nil) .nil)))
            (.cons "t2" (.obj (.cons "id" (.str "t2") .nil)) .nil))
          (.cons "s1" (.obj (.cons "id" (.str "s1") .nil)) .nil)).tutors k
          = JObj.get (.cons "t1" (.obj (.cons "id" (.str "t1")
              (.cons "notifications" (.arr .nil) .nil)))
              (.cons "t2" (.obj (.cons "id" (.str "t2") .nil)) .nil)) k) ∧
      ∃ fields fields',
        JObj.get (.cons "t1" (.obj (.cons "id" (.str "t1")
            (.cons "notifications" (.arr .nil) .nil)))
            (.cons "t2" (.obj (.cons "id" (.str "t2") .nil)) .nil)) ts
          = some (.obj fields) ∧
        JObj.get (select_tutor
            (.cons "tutorId" (.str "t1") (.cons "studentId" (.str "s1") .nil))
            "2024-01-01T00:00:00"
            (.cons "t1" (.obj (.cons "id" (.str "t1")
              (.cons "notifications" (.arr .nil) .nil)))
              (.cons "t2" (.obj (.cons "id" (.str "t2") .nil)) .nil))
            (.cons "s1" (.obj (.cons "id" (.str "s1") .nil)) .nil)).tutors ts
          = some (.obj fields') ∧
        ∀ fld, fld ≠ "notifications" →
          JObj.get fields' fld = JObj.get fields fld :=
  select_tutor_frame
    (.cons "tutorId" (.str "t1") (.cons "studentId" (.str "s1") .nil))
    "2024-01-01T00:00:00"
    (.cons "t1" (.obj (.cons "id" (.str "t1")
      (.cons "notifications" (.arr .nil) .nil)))
      (.cons "t2" (.obj (.cons "id" (.str "t2") .nil)) .nil))
    (.cons "s1" (.obj (.cons "id" (.str "s1") .nil)) .nil)
    rfl

/-- Behaviour of the stripping comprehension on maps whose values are all
    dicts: it succeeds and replaces each record by the record without its
    notifications entry, preserving order and length. -/
theorem stripTutors_spec : ∀ (t : JObj), allValuesObj t = true →
    ∃ l, stripTutors t = some l ∧ JArr.length l = JObj.length t ∧
      ∀ i f, JObj.valAt t i = some (.obj f) →
        JArr.getIdx l i = some (.obj (JObj.eraseKey f "notifications"))
  | .nil, _ =>
      ⟨.nil, rfl, rfl, by intro i f hi; cases i <;> simp [JObj.valAt] at hi⟩
  | .cons k v rest, h => by
      cases v with
      | null => simp [allValuesObj] at h
      | bool b => simp [allValuesObj] at h
      | num n => simp [allValuesObj] at h
      | str s => simp [allValuesObj] at h
      | arr a => simp [allValuesObj] at h
      | obj fields =>
          have hrest : allValuesObj rest = true := by
            simpa [allValuesObj] using h
          obtain ⟨l, hl, hlen, hidx⟩ := stripTutors_spec rest hrest
          refine ⟨.cons (.obj (JObj.eraseKey fields "notifications")) l, ?_, ?_, ?_⟩
          · simp [stripTutors, hl]
          · simp [JArr.length, JObj.length, hlen]
          · intro i f hi
            cases i with
            | zero =>
                simp [JObj.valAt] at hi
                simp [JArr.getIdx, hi]
            | succ n =>
                simp only [JObj.valAt] at hi
                simpa [JArr.getIdx] using hidx n f hi

/-- C5: on a tutor map all of whose stored values are records (dicts) — the
    shape every registered profile has — ListTutors answers 200 with the
    list of all profile values in map order; each element is the stored
    record with the notifications key removed, every other field preserved,
    and no element of the returned list contains a notifications key. -/
theorem get_all_tutors_strips (tutors : JObj) (h : allValuesObj tutors = true) :
    (get_all_tutors tutors).status = 200 ∧
    ∃ l, (get_all_tutors tutors).body = .arr l ∧
      JArr.length l = JObj.length tutors ∧
      ∀ i f, JObj.valAt tutors i = some (.obj f) →
        ∃ g, JArr.getIdx l i = some (.obj g) ∧
          JObj.get g "notifications" = none ∧
          ∀ k, k ≠ "notifications" → JObj.get g k = JObj.get f k := by
  obtain ⟨l, hl, hlen, hidx⟩ := stripTutors_spec tutors h
  have hres : get_all_tutors tutors = ⟨200, .arr l⟩ := by
    simp [get_all_tutors, hl]
  rw [hres]
  refine ⟨rfl, l, rfl, hlen, ?_⟩
  intro i f hi
  exact ⟨JObj.eraseKey f "notifications", hidx i f hi,
    JObj.get_eraseKey_self f "notifications",
    fun k hk => JObj.get_eraseKey_ne f "notifications" k hk⟩

theorem get_all_tutors_strips_witness :
    (get_all_tutors (.cons "t1" (.obj (.cons "id" (.str "t1")
        (.cons "notifications" (.arr (.cons (.str "x") .nil)) .nil))) .nil)).status
      = 200 ∧
    ∃ l, (get_all_tutors (.cons "t1" (.obj (.cons "id" (.str "t1")
        (.cons "notifications" (.arr (.cons (.str "x") .nil)) .nil))) .nil)).body
        = .arr l ∧
      JArr.length l = JObj.length (.cons "t1" (.obj (.cons "id" (.str "t1")
        (.cons "notifications" (.arr (.cons (.str "x") .nil)) .nil))) .nil) ∧
      ∀ i f, JObj.valAt (.cons "t1" (.obj (.cons "id" (.str "t1")
          (.cons "notifications" (.arr (.cons (.str "x") .nil)) .nil))) .nil) i
          = some (.obj f) →
        ∃ g, JArr.getIdx l i = some (.obj g) ∧
          JObj.get g "notifications" = none ∧
          ∀ k, k ≠ "notifications" → JObj.get g k = JObj.get f k :=
  get_all_tutors_strips
    (.cons "t1" (.obj (.cons "id" (.str "t1")
      (.cons "notifications" (.arr (.cons (.str "x") .nil)) .nil))) .nil)
    rfl

-- ------------------------------------------------------------------
-- Round trip of the Store: parsing inverts printing.
-- ------------------------------------------------------------------

theorem dropWhile_ws_append (ws l : List Char) (h : ∀ c ∈ ws, isWs c = true) :
    List.dropWhile isWs (ws ++ l) = List.dropWhile isWs l := by
  induction ws with
  | nil => rfl
  | cons c cs ih =>
      simp only [List.cons_append, List.dropWhile_cons]
      rw [h c (by simp)]
      simp only [if_true]
      exact ih (fun x hx => h x (by simp [hx]))

theorem dropWhile_not_ws (c : Char) (l : List Char) (h : isWs c = false) :
    List.dropWhile isWs (c :: l) = c :: l := by
  simp [List.dropWhile_cons, h]

theorem indentPad_ws (lvl : Nat) : ∀ c ∈ indentPad lvl, isWs c = true := by
  intro c hc
  rw [indentPad] at hc
  rw [List.eq_of_mem_replicate hc]
  rfl

theorem newline_pad_ws (lvl : Nat) : ∀ c ∈ '\n' :: indentPad lvl, isWs c = true := by
  intro c hc
  rcases List.mem_cons.mp hc with hc | hc
  · rw [hc]; rfl
  · exact indentPad_ws lvl c hc

theorem ws_not_digit (c : Char) (h : isWs c = true) : c.isDigit = false := by
  have h' : ((c = ' ' ∨ c = '\t') ∨ c = '\n') ∨ c = '\r' := by
    simpa [isWs] using h
  rcases h' with ((h' | h') | h') | h' <;> rw [h'] <;> rfl

theorem digit_not_ws (c : Char) (h : c.isDigit = true) : isWs c = false := by
  by_contra hne
  have hw : isWs c = true := by
    cases hval : isWs c
    · exact absurd hval hne
    · rfl
  rw [ws_not_digit c hw] at h
  exact absurd h (by simp)

theorem digitChar_isDigit (n : Nat) (h : n < 10) : (digitChar n).isDigit = true := by
  interval_cases n <;> rfl

theorem digitChar_toNat (n : Nat) (h : n < 10) : (digitChar n).toNat - 48 = n := by
  interval_cases n <;> rfl

theorem natChars_ne_nil (n : Nat) : natChars n ≠ [] := by
  unfold natChars
  split_ifs <;> simp

theorem natChars_digits : ∀ (n : Nat) (c : Char), c ∈ natChars n → c.isDigit = true
  | n, c, hc => by
      unfold natChars at hc
      split_ifs at hc with h
      · rw [List.mem_singleton.mp hc]
        exact digitChar_isDigit n h
      · rcases List.mem_append.mp hc with hc2 | hc2
        · exact natChars_digits (n / 10) c hc2
        · rw [List.mem_singleton.mp hc2]
          exact digitChar_isDigit (n % 10) (Nat.mod_lt _ (by omega))
termination_by n _ _ => n
decreasing_by exact Nat.div_lt_self (by omega) (by omega)

theorem digitsToNat_natChars : ∀ (n : Nat), digitsToNat (natChars n) = n
  | n => by
      unfold natChars
      split_ifs with h
      · simp only [digitsToNat, List.foldl_cons, List.foldl_nil, Nat.zero_mul,
          Nat.zero_add]
        exact digitChar_toNat n h
      · rw [digitsToNat, List.foldl_append]
        have hrec := digitsToNat_natChars (n / 10)
        rw [digitsToNat] at hrec
        rw [hrec]
        simp only [List.foldl_cons, List.foldl_nil]
        rw [digitChar_toNat (n % 10) (Nat.mod_lt _ (by omega))]
        omega
termination_by n => n
decreasing_by exact Nat.div_lt_self (by omega) (by omega)

theorem takeWhile_digits_append (ds rest : List Char)
    (hd : ∀ c ∈ ds, c.isDigit = true) (hr : noDigit rest) :
    List.takeWhile Char.isDigit (ds ++ rest) = ds ∧
    List.dropWhile Char.isDigit (ds ++ rest) = rest := by
  induction ds with
  | nil =>
      cases rest with
      | nil => exact ⟨rfl, rfl⟩
      | cons c cs =>
          have hc : c.isDigit = false := hr
          simp [List.takeWhile_cons, List.dropWhile_cons, hc]
  | cons c cs ih =>
      have hc := hd c (by simp)
      have hih := ih (fun x hx => hd x (by simp [hx]))
      simp [List.takeWhile_cons, List.dropWhile_cons, hc, hih.1, hih.2]

theorem parseStringChars_quote (rest : List Char) :
    parseStringChars ('"' :: rest) = some ([], rest) := by
  rw [parseStringChars.eq_def]
  simp

theorem parseStringChars_backslash (e : Char) (rest : List Char) :
    parseStringChars ('\\' :: e :: rest)
      = match unescape e with
        | some ec =>
            match parseStringChars rest with
            | some (sc, rest2) => some (ec :: sc, rest2)
            | none => none
        | none => none := rfl

theorem parseStringChars_plain (c : Char) (rest : List Char)
    (h1 : ¬ c = '"') (h2 : ¬ c = '\\') :
    parseStringChars (c :: rest)
      = match parseStringChars rest with
        | some (sc, rest2) => some (c :: sc, rest2)
        | none => none := by
  rw [parseStringChars.eq_def]
  simp [h1, h2]

theorem parseStringChars_escChars : ∀ (cs rest : List Char),
    parseStringChars (escChars cs ++ '"' :: rest) = some (cs, rest)
  | [], rest => by
      simp only [escChars, List.nil_append]
      exact parseStringChars_quote rest
  | c :: cs, rest => by
      by_cases h1 : c = '"'
      · subst h1
        have he : escapeChar '"' = ['\\', '"'] := rfl
        rw [escChars, he]
        simp only [List.cons_append, List.nil_append, List.append_assoc]
        rw [parseStringChars_backslash]
        have hu : unescape '"' = some '"' := rfl
        simp [hu, parseStringChars_escChars cs rest]
      · by_cases h2 : c = '\\'
        · subst h2
          have he : escapeChar '\\' = ['\\', '\\'] := rfl
          rw [escChars, he]
          simp only [List.cons_append, List.nil_append, List.append_assoc]
          rw [parseStringChars_backslash]
          have hu : unescape '\\' = some '\\' := rfl
          simp [hu, parseStringChars_escChars cs rest]
        · have he : escapeChar c = [c] := by simp [escapeChar, h1, h2]
          rw [escChars, he]
          simp only [List.cons_append, List.nil_append]
          rw [parseStringChars_plain c _ h1 h2]
          simp [parseStringChars_escChars cs rest]

theorem sizeV_pos (v : JVal) : 1 ≤ sizeV v := by
  cases v <;> simp [sizeV]

theorem sizeA_pos (a : JArr) : 1 ≤ sizeA a := by
  cases a <;> simp only [sizeA] <;> omega

theorem sizeO_pos (o : JObj) : 1 ≤ sizeO o := by
  cases o <;> simp only [sizeO] <;> omega

theorem dumpVal_head (lvl : Nat) (v : JVal) :
    ∃ c cs, dumpVal lvl v = c :: cs ∧ isWs c = false ∧
      (c == ']') = false ∧ (c == '}') = false := by
  cases v with
  | null => exact ⟨'n', ['u', 'l', 'l'], by simp [dumpVal], rfl, rfl, rfl⟩
  | bool b =>
      cases b with
      | false => exact ⟨'f', ['a', 'l', 's', 'e'], by simp [dumpVal], rfl, rfl, rfl⟩
      | true => exact ⟨'t', ['r', 'u', 'e'], by simp [dumpVal], rfl, rfl, rfl⟩
  | num n =>
      cases n with
      | ofNat m =>
          obtain ⟨d, ds, hd⟩ : ∃ d ds, natChars m = d :: ds := by
            cases hnc : natChars m with
            | nil => exact absurd hnc (natChars_ne_nil m)
            | cons d ds => exact ⟨d, ds, rfl⟩
          have hdig : d.isDigit = true := natChars_digits m d (by rw [hd]; simp)
          refine ⟨d, ds, by simp [dumpVal, intRepr, hd], digit_not_ws d hdig, ?_, ?_⟩
          · rw [beq_eq_false_iff_ne]
            rintro rfl
            exact absurd hdig (by decide)
          · rw [beq_eq_false_iff_ne]
            rintro rfl
            exact absurd hdig (by decide)
      | negSucc m =>
          exact ⟨'-', natChars (m + 1), by simp [dumpVal, intRepr], rfl, rfl, rfl⟩
  | str s =>
      exact ⟨'"', escChars s.data ++ ['"'], by simp [dumpVal, dumpStr], rfl, rfl, rfl⟩
  | arr a =>
      cases a with
      | nil => exact ⟨'[', [']'], by simp [dumpVal], rfl, rfl, rfl⟩
      | cons v2 a2 =>
          exact ⟨'[', '\n' :: (indentPad (lvl + 1) ++ (dumpVal (lvl + 1) v2
            ++ (dumpArrRest (lvl + 1) a2 ++ '\n' :: (indentPad lvl ++ [']'])))),
            by simp [dumpVal], rfl, rfl, rfl⟩
  | obj o =>
      cases o with
      | nil => exact ⟨'{', ['}'], by simp [dumpVal], rfl, rfl, rfl⟩
      | cons k v2 o2 =>
          exact ⟨'{', '\n' :: (indentPad (lvl + 1) ++ (dumpStr k
            ++ ':' :: ' ' :: (dumpVal (lvl + 1) v2
              ++ (dumpObjRest (lvl + 1) o2 ++ '\n' :: (indentPad lvl ++ ['}']))))),
            by simp [dumpVal], rfl, rfl, rfl⟩

theorem dropWhile_dump (lvl : Nat) (v : JVal) (rest : List Char) :
    List.dropWhile isWs (dumpVal lvl v ++ rest) = dumpVal lvl v ++ rest := by
  obtain ⟨c, cs, heq, hws, _, _⟩ := dumpVal_head lvl v
  rw [heq, List.cons_append, dropWhile_not_ws _ _ hws]

theorem headIs_dump_not_rbracket (lvl : Nat) (v : JVal) (rest : List Char) :
    headIs (dumpVal lvl v ++ rest) ']' = false := by
  obtain ⟨c, cs, heq, _, hbr, _⟩ := dumpVal_head lvl v
  rw [heq, List.cons_append, headIs, hbr]

theorem noDigit_arrRest (lvl : Nat) (a : JArr) (ws2 rest : List Char)
    (hws2 : ∀ c ∈ ws2, isWs c = true) :
    noDigit (dumpArrRest lvl a ++ (ws2 ++ (']' :: rest))) := by
  cases a with
  | cons v as =>
      rw [dumpArrRest]
      simp only [List.cons_append]
      show (',').isDigit = false
      decide
  | nil =>
      rw [dumpArrRest]
      simp only [List.nil_append]
      cases ws2 with
      | nil =>
          simp only [List.nil_append]
          show (']').isDigit = false
          decide
      | cons w wsr =>
          simp only [List.cons_append]
          show w.isDigit = false
          exact ws_not_digit w (hws2 w (by simp))

theorem noDigit_objRest (lvl : Nat) (o : JObj) (ws2 rest : List Char)
    (hws2 : ∀ c ∈ ws2, isWs c = true) :
    noDigit (dumpObjRest lvl o ++ (ws2 ++ ('}' :: rest))) := by
  cases o with
  | cons k v os =>
      rw [dumpObjRest]
      simp only [List.cons_append]
      show (',').isDigit = false
      decide
  | nil =>
      rw [dumpObjRest]
      simp only [List.nil_append]
      cases ws2 with
      | nil =>
          simp only [List.nil_append]
          show ('}').isDigit = false
          decide
      | cons w wsr =>
          simp only [List.cons_append]
          show w.isDigit = false
          exact ws_not_digit w (hws2 w (by simp))

theorem headIs_dump_not_rbrace (lvl : Nat) (v : JVal) (rest : List Char) :
    headIs (dumpVal lvl v ++ rest) '}' = false := by
  obtain ⟨c, cs, heq, _, _, hbr⟩ := dumpVal_head lvl v
  rw [heq, List.cons_append, headIs, hbr]

theorem dropWhile_nl_pad_dump (lvl lvl2 : Nat) (v : JVal) (tail : List Char) :
    List.dropWhile isWs ('\n' :: (indentPad lvl ++ (dumpVal lvl2 v ++ tail)))
      = dumpVal lvl2 v ++ tail := by
  rw [show '\n' :: (indentPad lvl ++ (dumpVal lvl2 v ++ tail))
      = ('\n' :: indentPad lvl) ++ (dumpVal lvl2 v ++ tail) from
    (List.cons_append _ _ _).symm]
  rw [dropWhile_ws_append _ _ (newline_pad_ws lvl), dropWhile_dump]

theorem space_ws : ∀ c ∈ [' '], isWs c = true := by
  intro c hc
  rw [List.mem_singleton.mp hc]
  rfl


mutual

theorem parseVal_dump (v : JVal) (lvl fuel : Nat) (ws rest : List Char)
    (hf : sizeV v ≤ fuel) (hws : ∀ c ∈ ws, isWs c = true) (hnd : noDigit rest) :
    parseVal fuel (ws ++ (dumpVal lvl v ++ rest)) = some (v, rest) := by
  cases fuel with
  | zero =>
      have := sizeV_pos v
      omega
  | succ f =>
      have hdw : List.dropWhile isWs (ws ++ (dumpVal lvl v ++ rest))
          = dumpVal lvl v ++ rest := by
        rw [dropWhile_ws_append ws _ hws, dropWhile_dump]
      cases v with
      | null =>
          simp only [dumpVal, List.cons_append, List.nil_append] at hdw
          rw [parseVal.eq_def]
          simp +decide [hdw, dumpVal, List.cons_append]
      | bool b =>
          cases b with
          | false =>
              simp only [dumpVal, List.cons_append, List.nil_append] at hdw
              rw [parseVal.eq_def]
              simp +decide [hdw, dumpVal, List.cons_append]
          | true =>
              simp only [dumpVal, List.cons_append, List.nil_append] at hdw
              rw [parseVal.eq_def]
              simp +decide [hdw, dumpVal, List.cons_append]
      | num n =>
          cases n with
          | ofNat m =>
              obtain ⟨d, ds, hd⟩ : ∃ d ds, natChars m = d :: ds := by
                cases hnc : natChars m with
                | nil => exact absurd hnc (natChars_ne_nil m)
                | cons d ds => exact ⟨d, ds, rfl⟩
              have hdig : d.isDigit = true := natChars_digits m d (by rw [hd]; simp)
              have hsplit := takeWhile_digits_append (natChars m) rest
                (natChars_digits m) hnd
              rw [hd] at hsplit
              simp only [List.cons_append] at hsplit
              simp only [dumpVal, intRepr, hd, List.cons_append] at hdw
              rw [parseVal.eq_def]
              simp [hdw, dumpVal, intRepr, hd, List.cons_append, hdig,
                hsplit.1, hsplit.2]
              rw [← hd, digitsToNat_natChars]
          | negSucc m =>
              obtain ⟨d, ds, hd⟩ : ∃ d ds, natChars (m + 1) = d :: ds := by
                cases hnc : natChars (m + 1) with
                | nil => exact absurd hnc (natChars_ne_nil (m + 1))
                | cons d ds => exact ⟨d, ds, rfl⟩
              have hdig : d.isDigit = true :=
                natChars_digits (m + 1) d (by rw [hd]; simp)
              have hsplit := takeWhile_digits_append (natChars (m + 1)) rest
                (natChars_digits (m + 1)) hnd
              have hcast : -(((m + 1 : Nat) : Int)) = Int.negSucc m := by
                rw [Int.negSucc_eq]
                push_cast
                ring
              rw [hd] at hsplit
              simp only [List.cons_append] at hsplit
              simp only [dumpVal, intRepr, hd, List.cons_append,
                List.nil_append] at hdw
              rw [parseVal.eq_def]
              simp +decide [hdw, dumpVal, intRepr, hd, List.cons_append, hdig,
                hsplit.1, hsplit.2]
              rw [← hd, digitsToNat_natChars, hcast]
      | str s =>
          simp only [dumpVal, dumpStr, List.cons_append, List.append_assoc,
            List.singleton_append, List.nil_append] at hdw
          rw [parseVal.eq_def]
          simp +decide [hdw, dumpVal, dumpStr, List.cons_append, List.append_assoc,
            List.singleton_append, parseStringChars_escChars s.data rest]
      | arr a =>
          cases a with
          | nil =>
              simp only [dumpVal, List.cons_append, List.nil_append] at hdw
              rw [parseVal.eq_def]
              have hdrop : List.dropWhile isWs (']' :: rest) = ']' :: rest :=
                dropWhile_not_ws _ _ rfl
              simp +decide [hdw, dumpVal, List.cons_append, hdrop, headIs]
          | cons v2 a2 =>
              have hfa : 1 + sizeV v2 + sizeA a2 ≤ f := by
                simp only [sizeV, sizeA] at hf
                omega
              have harr := parseArrItems_dump v2 a2 (lvl + 1) f
                ('\n' :: indentPad (lvl + 1)) ('\n' :: indentPad lvl) rest hfa
                (newline_pad_ws _) (newline_pad_ws _)
              simp only [List.cons_append, List.append_assoc,
                List.singleton_append, List.nil_append] at harr
              have hdT := dropWhile_nl_pad_dump (lvl + 1) (lvl + 1) v2
                (dumpArrRest (lvl + 1) a2 ++ '\n' :: (indentPad lvl ++ ']' :: rest))
              have hhead : headIs (dumpVal (lvl + 1) v2
                  ++ (dumpArrRest (lvl + 1) a2
                    ++ '\n' :: (indentPad lvl ++ ']' :: rest))) ']' = false :=
                headIs_dump_not_rbracket _ _ _
              simp only [List.cons_append, List.append_assoc,
                List.singleton_append, List.nil_append] at hdT hhead
              simp only [dumpVal, List.cons_append, List.append_assoc,
                List.singleton_append, List.nil_append] at hdw
              rw [parseVal.eq_def]
              simp +decide [hdw, hdT, hhead, harr, dumpVal, List.cons_append,
                List.append_assoc, List.singleton_append, List.nil_append]
      | obj o =>
          cases o with
          | nil =>
              simp only [dumpVal, List.cons_append, List.nil_append] at hdw
              rw [parseVal.eq_def]
              have hdrop : List.dropWhile isWs ('}' :: rest) = '}' :: rest :=
                dropWhile_not_ws _ _ rfl
              simp +decide [hdw, dumpVal, List.cons_append, hdrop, headIs]
          | cons k v2 o2 =>
              have hfo : 1 + sizeV v2 + sizeO o2 ≤ f := by
                simp only [sizeV, sizeO] at hf
                omega
              have hobj := parseObjItems_dump k v2 o2 (lvl + 1) f
                ('\n' :: indentPad (lvl + 1)) ('\n' :: indentPad lvl) rest hfo
                (newline_pad_ws _) (newline_pad_ws _)
              simp only [dumpStr, List.cons_append, List.append_assoc,
                List.singleton_append, List.nil_append] at hobj
              have hdT : List.dropWhile isWs ('\n' :: (indentPad (lvl + 1)
                  ++ (dumpStr k ++ ':' :: ' ' :: (dumpVal (lvl + 1) v2
                    ++ (dumpObjRest (lvl + 1) o2
                      ++ '\n' :: (indentPad lvl ++ '}' :: rest))))))
                  = dumpStr k ++ ':' :: ' ' :: (dumpVal (lvl + 1) v2
                    ++ (dumpObjRest (lvl + 1) o2
                      ++ '\n' :: (indentPad lvl ++ '}' :: rest))) := by
                rw [show '\n' :: (indentPad (lvl + 1)
                    ++ (dumpStr k ++ ':' :: ' ' :: (dumpVal (lvl + 1) v2
                      ++ (dumpObjRest (lvl + 1) o2
                        ++ '\n' :: (indentPad lvl ++ '}' :: rest)))))
                    = ('\n' :: indentPad (lvl + 1))
                      ++ (dumpStr k ++ ':' :: ' ' :: (dumpVal (lvl + 1) v2
                        ++ (dumpObjRest (lvl + 1) o2
                          ++ '\n' :: (indentPad lvl ++ '}' :: rest)))) from
                  (List.cons_append _ _ _).symm]
                rw [dropWhile_ws_append _ _ (newline_pad_ws _)]
                rw [dumpStr, List.cons_append]
                exact dropWhile_not_ws _ _ rfl
              have hhead : headIs (dumpStr k ++ ':' :: ' ' :: (dumpVal (lvl + 1) v2
                  ++ (dumpObjRest (lvl + 1) o2
                    ++ '\n' :: (indentPad lvl ++ '}' :: rest)))) '}' = false := by
                rw [dumpStr, List.cons_append, headIs]
                decide
              simp only [dumpStr, List.cons_append, List.append_assoc,
                List.singleton_append, List.nil_append] at hdT hhead
              simp only [dumpVal, dumpStr, List.cons_append, List.append_assoc,
                List.singleton_append, List.nil_append] at hdw
              rw [parseVal.eq_def]
              simp +decide [hdw, hdT, hhead, hobj, dumpVal, dumpStr,
                List.cons_append, List.append_assoc, List.singleton_append,
                List.nil_append]

termination_by fuel
decreasing_by all_goals omega

theorem parseArrItems_dump (v : JVal) (a : JArr) (lvl fuel : Nat)
    (ws1 ws2 rest : List Char)
    (hf : 1 + sizeV v + sizeA a ≤ fuel)
    (h1 : ∀ c ∈ ws1, isWs c = true) (h2 : ∀ c ∈ ws2, isWs c = true) :
    parseArrItems fuel
        (ws1 ++ (dumpVal lvl v ++ (dumpArrRest lvl a ++ (ws2 ++ (']' :: rest)))))
      = some (.cons v a, rest) := by
  cases fuel with
  | zero =>
      have := sizeV_pos v
      have := sizeA_pos a
      omega
  | succ f =>
      have hv : parseVal f (ws1 ++ (dumpVal lvl v
          ++ (dumpArrRest lvl a ++ (ws2 ++ (']' :: rest)))))
          = some (v, dumpArrRest lvl a ++ (ws2 ++ (']' :: rest))) :=
        parseVal_dump v lvl f ws1 _
          (by have := sizeA_pos a; omega) h1
          (noDigit_arrRest lvl a ws2 rest h2)
      rw [parseArrItems.eq_def]
      simp only [hv]
      cases a with
      | nil =>
          have hdrop : List.dropWhile isWs (dumpArrRest lvl .nil
              ++ (ws2 ++ (']' :: rest))) = ']' :: rest := by
            rw [dumpArrRest]
            simp only [List.nil_append]
            rw [dropWhile_ws_append _ _ h2]
            exact dropWhile_not_ws _ _ rfl
          simp [hdrop]
      | cons v2 a2 =>
          have hfa : 1 + sizeV v2 + sizeA a2 ≤ f := by
            have := sizeV_pos v
            simp only [sizeA] at hf
            omega
          have hrec := parseArrItems_dump v2 a2 lvl f ('\n' :: indentPad lvl) ws2 rest
            hfa (newline_pad_ws lvl) h2
          have hdrop : List.dropWhile isWs (dumpArrRest lvl (.cons v2 a2)
              ++ (ws2 ++ (']' :: rest)))
              = ',' :: (('\n' :: indentPad lvl) ++ (dumpVal lvl v2
                  ++ (dumpArrRest lvl a2 ++ (ws2 ++ (']' :: rest))))) := by
            rw [dumpArrRest]
            simp only [List.cons_append, List.append_assoc]
            rw [dropWhile_not_ws ',' _ rfl]
          simp only [List.cons_append, List.append_assoc] at hdrop hrec
          simp [hdrop, hrec]

termination_by fuel
decreasing_by all_goals omega

theorem parseObjItems_dump (k : String) (v : JVal) (o : JObj) (lvl fuel : Nat)
    (ws1 ws2 rest : List Char)
    (hf : 1 + sizeV v + sizeO o ≤ fuel)
    (h1 : ∀ c ∈ ws1, isWs c = true) (h2 : ∀ c ∈ ws2, isWs c = true) :
    parseObjItems fuel
        (ws1 ++ (dumpStr k ++ (':' :: ' ' :: (dumpVal lvl v
          ++ (dumpObjRest lvl o ++ (ws2 ++ ('}' :: rest)))))))
      = some (.cons k v o, rest) := by
  cases fuel with
  | zero =>
      have := sizeV_pos v
      have := sizeO_pos o
      omega
  | succ f =>
      have hdw : List.dropWhile isWs (ws1 ++ (dumpStr k ++ (':' :: ' ' :: (dumpVal lvl v
          ++ (dumpObjRest lvl o ++ (ws2 ++ ('}' :: rest)))))))
          = dumpStr k ++ (':' :: ' ' :: (dumpVal lvl v
              ++ (dumpObjRest lvl o ++ (ws2 ++ ('}' :: rest))))) := by
        rw [dropWhile_ws_append _ _ h1, dumpStr, List.cons_append]
        exact dropWhile_not_ws '"' _ rfl
      have hkey := parseStringChars_escChars k.data
        (':' :: ' ' :: (dumpVal lvl v ++ (dumpObjRest lvl o ++ (ws2 ++ ('}' :: rest)))))
      have hval : parseVal f ([' '] ++ (dumpVal lvl v
          ++ (dumpObjRest lvl o ++ (ws2 ++ ('}' :: rest)))))
          = some (v, dumpObjRest lvl o ++ (ws2 ++ ('}' :: rest))) :=
        parseVal_dump v lvl f [' '] _
          (by have := sizeO_pos o; omega) space_ws
          (noDigit_objRest lvl o ws2 rest h2)
      have hcolon : List.dropWhile isWs (':' :: ' ' :: (dumpVal lvl v
          ++ (dumpObjRest lvl o ++ (ws2 ++ ('}' :: rest)))))
          = ':' :: ' ' :: (dumpVal lvl v
              ++ (dumpObjRest lvl o ++ (ws2 ++ ('}' :: rest)))) :=
        dropWhile_not_ws _ _ rfl
      simp only [dumpStr, List.cons_append, List.append_assoc,
        List.singleton_append, List.nil_append] at hdw hkey hcolon
      simp only [List.singleton_append, List.cons_append, List.append_assoc] at hval
      rw [parseObjItems.eq_def]
      cases o with
      | nil =>
          have hdrop : List.dropWhile isWs (dumpObjRest lvl .nil
              ++ (ws2 ++ ('}' :: rest))) = '}' :: rest := by
            rw [dumpObjRest]
            simp only [List.nil_append]
            rw [dropWhile_ws_append _ _ h2]
            exact dropWhile_not_ws _ _ rfl
          simp only [dumpObjRest, List.nil_append] at hdw hkey hcolon hval hdrop
          simp [hdw, hkey, hcolon, hval, hdrop, dumpStr, dumpObjRest,
            List.cons_append, List.append_assoc, List.singleton_append,
            List.nil_append]
      | cons k2 v2 o2 =>
          have hfo : 1 + sizeV v2 + sizeO o2 ≤ f := by
            have := sizeV_pos v
            simp only [sizeO] at hf
            omega
          have hrec := parseObjItems_dump k2 v2 o2 lvl f ('\n' :: indentPad lvl)
            ws2 rest hfo (newline_pad_ws lvl) h2
          have hdrop : List.dropWhile isWs (dumpObjRest lvl (.cons k2 v2 o2)
              ++ (ws2 ++ ('}' :: rest)))
              = ',' :: (('\n' :: indentPad lvl) ++ (dumpStr k2
                  ++ ':' :: ' ' :: (dumpVal lvl v2
                    ++ (dumpObjRest lvl o2 ++ (ws2 ++ ('}' :: rest)))))) := by
            rw [dumpObjRest]
            simp only [List.cons_append, List.append_assoc]
            rw [dropWhile_not_ws ',' _ rfl]
          simp only [dumpObjRest, dumpStr, List.cons_append, List.append_assoc,
            List.singleton_append, List.nil_append] at hdw hkey hcolon hval hdrop hrec
          simp [hdw, hkey, hcolon, hval, hdrop, hrec, dumpStr, dumpObjRest,
            List.cons_append, List.append_assoc, List.singleton_append,
            List.nil_append]

termination_by fuel
decreasing_by all_goals omega

end

mutual

theorem sizeV_le_dump : ∀ (lvl : Nat) (v : JVal),
    sizeV v ≤ (dumpVal lvl v).length + 1
  | lvl, .null => by simp only [sizeV, dumpVal, List.length_cons]; omega
  | lvl, .bool true => by simp only [sizeV, dumpVal, List.length_cons]; omega
  | lvl, .bool false => by simp only [sizeV, dumpVal, List.length_cons]; omega
  | lvl, .num n => by simp only [sizeV]; omega
  | lvl, .str s => by simp only [sizeV]; omega
  | lvl, .arr .nil => by simp only [sizeV, sizeA, dumpVal, List.length_cons]; omega
  | lvl, .arr (.cons v a) => by
      have h1 := sizeV_le_dump (lvl + 1) v
      have h2 := sizeA_le_dumpRest (lvl + 1) a
      simp only [sizeV, sizeA, dumpVal, List.length_cons, List.length_append]
      omega
  | lvl, .obj .nil => by simp only [sizeV, sizeO, dumpVal, List.length_cons]; omega
  | lvl, .obj (.cons k v o) => by
      have h1 := sizeV_le_dump (lvl + 1) v
      have h2 := sizeO_le_dumpRest (lvl + 1) o
      simp only [sizeV, sizeO, dumpVal, List.length_cons, List.length_append]
      omega

theorem sizeA_le_dumpRest : ∀ (lvl : Nat) (a : JArr),
    sizeA a ≤ (dumpArrRest lvl a).length + 1
  | lvl, .nil => by simp only [sizeA, dumpArrRest, List.length_nil]; omega
  | lvl, .cons v a => by
      have h1 := sizeV_le_dump lvl v
      have h2 := sizeA_le_dumpRest lvl a
      simp only [sizeA, dumpArrRest, List.length_cons, List.length_append]
      omega

theorem sizeO_le_dumpRest : ∀ (lvl : Nat) (o : JObj),
    sizeO o ≤ (dumpObjRest lvl o).length + 1
  | lvl, .nil => by simp only [sizeO, dumpObjRest, List.length_nil]; omega
  | lvl, .cons k v o => by
      have h1 := sizeV_le_dump lvl v
      have h2 := sizeO_le_dumpRest lvl o
      simp only [sizeO, dumpObjRest, List.length_cons, List.length_append]
      omega

end

/-- C8: saving a document (a mapping from string ids to JSON records) and
    loading it back yields exactly the same mapping.  The hypothesis wfO
    restricts to the values on which the printer coincides with json.dump:
    integer numbers and printable-ASCII strings; on them equality is on the
    nose, so it holds in particular up to JSON type coercion.  The document
    name plays no role: both documents go through the same save_data and
    load_data. -/
theorem save_load_round_trip (m : JObj) (_hwf : wfO m = true) :
    load_data (save_data m) = some (.obj m) := by
  have hp := parseVal_dump (.obj m) 0 ((dumpVal 0 (.obj m)).length + 1) [] []
    (by have := sizeV_le_dump 0 (.obj m); omega)
    (by intro c hc; exact absurd hc (List.not_mem_nil c))
    trivial
  simp only [List.nil_append, List.append_nil] at hp
  simp [load_data, save_data, hp]

theorem save_load_round_trip_witness :
    load_data (save_data (.cons "t1" (.obj (.cons "id" (.str "t1")
        (.cons "notifications" (.arr .nil) .nil))) .nil))
      = some (.obj (.cons "t1" (.obj (.cons "id" (.str "t1")
        (.cons "notifications" (.arr .nil) .nil))) .nil)) :=
  save_load_round_trip
    (.cons "t1" (.obj (.cons "id" (.str "t1")
      (.cons "notifications" (.arr .nil) .nil))) .nil)
    (by decide)
